import Mathlib

/-!
Verification of the schedule-resolution core of `pushplus_schedule.py`:
`get_current_week`, the weeks-recurrence parsing, the start-time sort key
and `get_daily_schedule`.

Dates are modelled as year/month/day triples of naturals; date comparison
and day differences go through the proleptic Gregorian day count (Rata
Die), which agrees with Python `datetime.date` ordering and subtraction on
valid dates.  Python strings are modelled as lists of characters, and the
`str.split` / `str.replace` / `str.strip` / `int` / `strptime` operations
the source uses are given structurally recursive definitions with the same
behaviour on the inputs the source can produce (ASCII digits, ASCII
whitespace; CPython additionally accepts Unicode digits and Unicode
whitespace, which the timetable format never contains).  The ambient value
of `datetime.date.today()` — read inside the Python functions, not passed
in by the caller — is modelled as an explicit `today` argument.
-/

/-- A calendar date as Python `datetime.date` stores it (year, month, day). -/
structure PyDate where
  year : Nat
  month : Nat
  day : Nat
deriving DecidableEq, Repr

/-- Gregorian leap-year test, as `datetime` uses. -/
def isLeap (y : Nat) : Bool :=
  y % 4 = 0 && (y % 100 != 0 || y % 400 = 0)

/-- Length of a month in the Gregorian calendar. -/
def daysInMonth (y m : Nat) : Nat :=
  if m = 2 then (if isLeap y then 29 else 28)
  else if m = 4 || m = 6 || m = 9 || m = 11 then 30
  else 31

/-- Number of leap years in the interval from year 1 to year n inclusive. -/
def leapsBefore (n : Nat) : Nat :=
  n / 4 - n / 100 + n / 400

/-- Days in months strictly before month `m` of year `y`. -/
def daysBeforeMonth (y m : Nat) : Nat :=
  (List.range (m - 1)).foldl (fun acc i => acc + daysInMonth y (i + 1)) 0

/-- Proleptic Gregorian day number (Rata Die): 0001-01-01 is day 1.  This is
the `toordinal` of Python `datetime.date`; date comparison and the `.days`
of a date difference in the source are computed through it. -/
def toRataDie (d : PyDate) : Nat :=
  365 * (d.year - 1) + leapsBefore (d.year - 1) + daysBeforeMonth d.year d.month + d.day

/-- Python `date` strict order (chronological, via the ordinal). -/
def dlt (a b : PyDate) : Bool :=
  toRataDie a < toRataDie b

/-- Python `date.isoweekday()`: Monday = 1 … Sunday = 7 (0001-01-01 is a Monday). -/
def isoweekday (d : PyDate) : Nat :=
  (toRataDie d - 1) % 7 + 1

/-- Python whitespace stripped by `str.strip()` (ASCII part). -/
def isPySpace (c : Char) : Bool :=
  c == ' ' || c == '\t' || c == '\n' || c == '\r' || c == Char.ofNat 11 || c == Char.ofNat 12

/-- Python `str.strip()` on a character list: drop whitespace at both ends. -/
def trimL (l : List Char) : List Char :=
  ((l.dropWhile isPySpace).reverse.dropWhile isPySpace).reverse

/-- Python `str.split(sep)` for a one-character separator: split at every
occurrence; the empty string yields one empty field. -/
def splitOnC (sep : Char) : List Char → List (List Char)
  | [] => [[]]
  | c :: rest =>
    if c == sep then [] :: splitOnC sep rest
    else
      match splitOnC sep rest with
      | h :: t => (c :: h) :: t
      | [] => [[c]]

/-- Boolean test that `p` is an initial segment of `l`. -/
def leadsWith : List Char → List Char → Bool
  | [], _ => true
  | _ :: _, [] => false
  | p :: ps, c :: cs => p == c && leadsWith ps cs

/-- Fuel-driven body of `replaceAll`; the fuel bounds the suffix length, so
with fuel = length of the list the zero-fuel case is never reached for a
non-empty pattern. -/
def replaceAllAux (pat rep : List Char) : Nat → List Char → List Char
  | _, [] => []
  | 0, l => l
  | fuel + 1, c :: rest =>
    if leadsWith pat (c :: rest) then rep ++ replaceAllAux pat rep fuel ((c :: rest).drop pat.length)
    else c :: replaceAllAux pat rep fuel rest

/-- Python `str.replace(pat, rep)` for a non-empty pattern: replace each
non-overlapping occurrence, scanning left to right (the source only calls
this with the patterns `"(周)"` and `"周"`). -/
def replaceAll (pat rep l : List Char) : List Char :=
  replaceAllAux pat rep l.length l

/-- Numeric value of a list of decimal digits (underscores skipped). -/
def natOfDigits (l : List Char) : Nat :=
  l.foldl (fun acc c => if c == '_' then acc else acc * 10 + (c.toNat - 48)) 0

/-- Rejects consecutive underscores, as Python `int()` does. -/
def noDoubleUnderscore : List Char → Bool
  | '_' :: '_' :: _ => false
  | _ :: rest => noDoubleUnderscore rest
  | [] => true

/-- Digit run accepted by Python `int()` after the optional sign: non-empty
ASCII digits, with single underscores allowed only between digits. -/
def pyNatDigits (l : List Char) : Option Nat :=
  if l ≠ [] ∧ l.all (fun c => c.isDigit || c == '_')
      ∧ (l.headD '_').isDigit ∧ (l.getLastD '_').isDigit ∧ noDoubleUnderscore l then
    some (natOfDigits l)
  else
    none

/-- Models Python `int(s)` on a character list: strip whitespace, optional
single sign, then a digit run; `none` where Python raises `ValueError`. -/
def pyInt (l : List Char) : Option Int :=
  match trimL l with
  | '-' :: rest => (pyNatDigits rest).map (fun n => -(n : Int))
  | '+' :: rest => (pyNatDigits rest).map (fun n => (n : Int))
  | t => (pyNatDigits t).map (fun n => (n : Int))

/-- Python `range(lo, hi + 1)` as a list of integers (empty when hi < lo). -/
def intRange (lo hi : Int) : List Int :=
  (List.range (hi + 1 - lo).toNat).map (fun i => lo + i)

/-- Models `datetime.strptime(s, "%Y-%m-%d").date()` from the source: CPython
compiles `%Y` to exactly four digits, `%m` to one or two digits valued 1–12,
`%d` to one or two digits valued 1–31, the whole string must match, and the
`datetime` constructor then checks the day against the month length and that
the year is at least `MINYEAR = 1`.  Returns `none` where Python raises
`ValueError`. -/
def parseDate (s : String) : Option PyDate :=
  match splitOnC '-' s.data with
  | [ys, ms, ds] =>
    if ys.length = 4 ∧ ys.all Char.isDigit
        ∧ 1 ≤ ms.length ∧ ms.length ≤ 2 ∧ ms.all Char.isDigit
        ∧ 1 ≤ ds.length ∧ ds.length ≤ 2 ∧ ds.all Char.isDigit then
      let y := natOfDigits ys
      let m := natOfDigits ms
      let d := natOfDigits ds
      if 1 ≤ y ∧ 1 ≤ m ∧ m ≤ 12 ∧ 1 ≤ d ∧ d ≤ daysInMonth y m then
        some ⟨y, m, d⟩
      else
        none
    else
      none
  | _ => none

/-- Models `get_current_week(start_date_str)` from the source.  The date that
`date.today()` yields inside the Python function is the explicit argument
`today`.  A malformed start date is caught (`except ValueError`) and gives 0;
a `today` before the start date gives 0; otherwise
`(today - start_date).days // 7 + 1`. -/
def get_current_week (start_date_str : String) (today : PyDate) : Nat :=
  match parseDate start_date_str with
  | none => 0
  | some start_date =>
    if dlt today start_date then 0
    else (toRataDie today - toRataDie start_date) / 7 + 1

/-- A course record from the timetable JSON.  Every field the source reads is
accessed with `dict.get`, so each is optional; present fields are strings
(the well-formedness assumed by the source). -/
structure Course where
  name : Option String := none
  day : Option String := none
  time : Option String := none
  session : Option String := none
  location : Option String := none
  teacher : Option String := none
  weeks : Option String := none
deriving DecidableEq, Repr

/-- The `semester_info` object of the timetable JSON, fields as read with
`dict.get`. -/
structure SemesterInfo where
  name : Option String := none
  start_date : Option String := none
  end_date : Option String := none
deriving DecidableEq, Repr

/-- The dictionary `get_daily_schedule` returns, one optional slot per key
the source ever puts in it (an absent key is `none`). -/
structure DSOut where
  error : Option String := none
  semester_name : Option String := none
  date : Option String := none
  day : Option String := none
  week : Option Nat := none
  status : Option String := none
  message : Option String := none
  courses : Option (List Course) := none
deriving DecidableEq, Repr

/-- An error dictionary: the single key `error`, nothing else. -/
def DSOut.err (msg : String) : DSOut :=
  { error := some msg }

/-- The `day_map` dictionary of the source with its `.get` default `"未知"`. -/
def day_map (n : Nat) : String :=
  match n with
  | 1 => "周一"
  | 2 => "周二"
  | 3 => "周三"
  | 4 => "周四"
  | 5 => "周五"
  | 6 => "周六"
  | 7 => "周日"
  | _ => "未知"

/-- Strips the decorations from a raw `weeks` string exactly as the source
does: `.replace("(周)", "").replace("周", "").strip()`. -/
def stripWeeks (raw : String) : List Char :=
  trimL (replaceAll "周".data [] (replaceAll "(周)".data [] raw.data))

/-- Handles one comma-separated token of a stripped `weeks` string, following
the loop body in the source: strip it; a token containing `-` must split
into exactly two integer bounds and contributes `range(start, end + 1)`; any
other token contributes its single integer value; a token that raises
`ValueError` contributes nothing. -/
def processPart (raw : List Char) : List Int :=
  if '-' ∈ trimL raw then
    match splitOnC '-' (trimL raw) with
    | [a, b] =>
      match pyInt (trimL a), pyInt (trimL b) with
      | some lo, some hi => intRange lo hi
      | _, _ => []
    | _ => []
  else
    match pyInt (trimL raw) with
    | some n => [n]
    | none => []

/-- The `active_weeks` list built from a stripped `weeks` string: the tokens
between commas, processed in order, contributions concatenated. -/
def parseTokens (ws : List Char) : List Int :=
  (splitOnC ',' ws).foldl (fun acc p => acc ++ processPart p) []

/-- The `parse_active_weeks` component named by the spec: decoration
stripping followed by tolerant token-by-token parsing. -/
def parse_active_weeks (raw : String) : List Int :=
  parseTokens (stripWeeks raw)

/-- The filter of the course loop in the source: the `day` field equals
today's label, the stripped `weeks` string is non-empty (else `continue`),
and the current week is in the parsed `active_weeks`. -/
def courseMatches (week : Nat) (label : String) (c : Course) : Bool :=
  c.day == some label &&
    (let ws := stripWeeks (c.weeks.getD "")
     !ws.isEmpty && (parseTokens ws).contains (week : Int))

/-- Models `get_start_time_key`: the part of `time` before the first `-`
(defaulting the whole field to `"23:59-23:59"` when absent), stripped and
parsed as `%H:%M`, in minutes; a `ValueError` falls back to 23:59.  CPython
compiles `%H` to one or two digits valued 0–23 and `%M` to one or two digits
valued 0–59, with the whole string required to match. -/
def parseHM (l : List Char) : Option Nat :=
  match splitOnC ':' l with
  | [hs, ms] =>
    if 1 ≤ hs.length ∧ hs.length ≤ 2 ∧ hs.all Char.isDigit
        ∧ 1 ≤ ms.length ∧ ms.length ≤ 2 ∧ ms.all Char.isDigit then
      if natOfDigits hs ≤ 23 ∧ natOfDigits ms ≤ 59 then
        some (natOfDigits hs * 60 + natOfDigits ms)
      else
        none
    else
      none
  | _ => none

/-- The sort key of a course, in minutes since midnight. -/
def get_start_time_key (c : Course) : Nat :=
  match parseHM (trimL ((splitOnC '-' (c.time.getD "23:59-23:59").data).headD [])) with
  | some k => k
  | none => 23 * 60 + 59

/-- Whether the start-time portion of the `time` field parses (the `try`
branch of `get_start_time_key` succeeds). -/
def startTimeParses (c : Course) : Bool :=
  (parseHM (trimL ((splitOnC '-' (c.time.getD "23:59-23:59").data).headD []))).isSome

/-- The comparison `list.sort(key=get_start_time_key)` sorts by. -/
def timeLe (a b : Course) : Bool :=
  get_start_time_key a ≤ get_start_time_key b

/-- The `daily_courses` list of the source: keep the matching courses in
input order, then sort stably in ascending key order (Python `list.sort` is
stable; `List.mergeSort` is the same stable ascending sort). -/
def daily_courses (week : Nat) (label : String) (cs : List Course) : List Course :=
  (cs.filter (courseMatches week label)).mergeSort timeLe

/-- The `semester_end_date` assignment in the source: an absent or empty
(falsy) `end_date` gives no end date; a non-empty one must parse or the
whole call errors (`none` here means the `ValueError` branch). -/
def parseEndDate (e : Option String) : Option (Option PyDate) :=
  match e with
  | none => some none
  | some s =>
    if s = "" then some none
    else
      match parseDate s with
      | some d => some (some d)
      | none => none

/-- The test `semester_end_date and today > semester_end_date` of the source:
false when no end date is set. -/
def endedCheck (edOpt : Option PyDate) (today : PyDate) : Bool :=
  match edOpt with
  | some e => dlt e today
  | none => false

/-- Zero-padding to two digits, for `strftime("%Y-%m-%d")`. -/
def pad2 (n : Nat) : String :=
  if n < 10 then "0" ++ toString n else toString n

/-- Zero-padding to four digits, for `strftime("%Y-%m-%d")`. -/
def pad4 (n : Nat) : String :=
  if n < 10 then "000" ++ toString n
  else if n < 100 then "00" ++ toString n
  else if n < 1000 then "0" ++ toString n
  else toString n

/-- The string `today.strftime("%Y-%m-%d")` produces for a four-digit year. -/
def formatDate (d : PyDate) : String :=
  pad4 d.year ++ "-" ++ pad2 d.month ++ "-" ++ pad2 d.day

/-- Models `get_daily_schedule` from the point where the timetable JSON has
been read (file access and JSON decoding are external collaborators; their
failure branches return error dictionaries before any of this logic runs).
`sem` and `courses` are the two top-level fields of the JSON and `today` is
the ambient `date.today()`.  Follows the source line by line: the missing
`start_date` check (Python falsiness: absent or empty), the date parsing
with its `ValueError` error dictionary, the week computation, the day
label, the three-phase decision in order, the course filter and the stable
sort.  The literal error texts of the source are abbreviated to their
constant prefixes. -/
def get_daily_schedule (sem : SemesterInfo) (courses : List Course) (today : PyDate) : DSOut :=
  let semester_name := sem.name.getD "未知学期"
  match sem.start_date with
  | none => DSOut.err "start_date 未定义"
  | some start_date_str =>
    if start_date_str = "" then DSOut.err "start_date 未定义"
    else
      match parseDate start_date_str with
      | none => DSOut.err "学期日期格式不正确"
      | some semester_start_date =>
        match parseEndDate sem.end_date with
        | none => DSOut.err "学期日期格式不正确"
        | some semester_end_date =>
          let current_week := get_current_week start_date_str today
          let today_day_name := day_map (isoweekday today)
          if dlt today semester_start_date then
            { semester_name := some semester_name
              date := some (formatDate today)
              day := some today_day_name
              week := some current_week
              status := some "not_started"
              message := some "学期尚未开始" }
          else if endedCheck semester_end_date today then
            { semester_name := some semester_name
              date := some (formatDate today)
              day := some today_day_name
              week := some current_week
              status := some "ended"
              message := some "学期已结束" }
          else
            { semester_name := some semester_name
              date := some (formatDate today)
              day := some today_day_name
              week := some current_week
              status := some "active"
              courses := some (daily_courses current_week today_day_name courses) }

/-- A concrete semester: starts Monday 2024-09-02, ends 2025-01-10 (the
scenario dates of the spec). -/
def semA : SemesterInfo :=
  { name := some "2024秋季学期", start_date := some "2024-09-02", end_date := some "2025-01-10" }

/-- A Monday course, weeks 1–8, start 08:00. -/
def cMon : Course :=
  { name := some "高数", day := some "周一", time := some "08:00-09:40",
    session := some "1-2节", location := some "教1-101", teacher := some "张老师",
    weeks := some "1-8周" }

/-- A second Monday course, later start time 14:00. -/
def cMonPM : Course :=
  { name := some "物理", day := some "周一", time := some "14:00-15:40",
    weeks := some "1-8,10" }

/-- A Monday course in week 1 whose `time` does not parse. -/
def cNoTime : Course :=
  { name := some "甲", day := some "周一", time := some "待定", weeks := some "1" }

/-- A Monday course in week 1 whose `time` parses with start exactly 23:59. -/
def cLateTime : Course :=
  { name := some "乙", day := some "周一", time := some "23:59-23:59", weeks := some "1" }

/-! Helper lemmas shared by the claim theorems. -/

lemma parseTokens_nil : parseTokens [] = [] := rfl

lemma courseMatches_iff (week : Nat) (label : String) (c : Course) :
    courseMatches week label c = true ↔
      c.day = some label ∧ (week : Int) ∈ parse_active_weeks (c.weeks.getD "") := by
  unfold courseMatches parse_active_weeks
  cases hws : stripWeeks (c.weeks.getD "") with
  | nil => simp [parseTokens_nil]
  | cons x xs =>
    simp only [Bool.and_eq_true, beq_iff_eq, List.isEmpty_cons, Bool.not_false, true_and,
      List.contains_eq_any_beq, List.any_eq_true, beq_iff_eq]
    constructor
    · rintro ⟨hd, w, hw, rfl⟩
      exact ⟨hd, hw⟩
    · rintro ⟨hd, hw⟩
      exact ⟨hd, _, hw, rfl⟩

lemma mem_daily_courses (week : Nat) (label : String) (cs : List Course) (c : Course) :
    c ∈ daily_courses week label cs ↔ c ∈ cs ∧ courseMatches week label c = true := by
  unfold daily_courses
  rw [List.mem_mergeSort, List.mem_filter]

lemma timeLe_total : ∀ a b : Course, timeLe a b || timeLe b a := by
  intro a b
  simp only [timeLe, Bool.or_eq_true, decide_eq_true_eq]
  exact Nat.le_total _ _

lemma timeLe_trans : ∀ a b c : Course, timeLe a b → timeLe b c → timeLe a c := by
  intro a b c hab hbc
  simp only [timeLe, decide_eq_true_eq] at hab hbc ⊢
  exact Nat.le_trans hab hbc

lemma gds_not_started (sem : SemesterInfo) (cs : List Course) (today : PyDate)
    (s : String) (sd : PyDate) (edOpt : Option PyDate)
    (h1 : sem.start_date = some s) (h2 : s ≠ "")
    (h3 : parseDate s = some sd) (h4 : parseEndDate sem.end_date = some edOpt)
    (h5 : dlt today sd = true) :
    get_daily_schedule sem cs today =
      { semester_name := some (sem.name.getD "未知学期")
        date := some (formatDate today)
        day := some (day_map (isoweekday today))
        week := some (get_current_week s today)
        status := some "not_started"
        message := some "学期尚未开始" } := by
  unfold get_daily_schedule
  rw [h1]
  simp [h2, h3, h4, h5]

lemma gds_ended (sem : SemesterInfo) (cs : List Course) (today : PyDate)
    (s : String) (sd : PyDate) (edOpt : Option PyDate)
    (h1 : sem.start_date = some s) (h2 : s ≠ "")
    (h3 : parseDate s = some sd) (h4 : parseEndDate sem.end_date = some edOpt)
    (h5 : dlt today sd = false) (h6 : endedCheck edOpt today = true) :
    get_daily_schedule sem cs today =
      { semester_name := some (sem.name.getD "未知学期")
        date := some (formatDate today)
        day := some (day_map (isoweekday today))
        week := some (get_current_week s today)
        status := some "ended"
        message := some "学期已结束" } := by
  unfold get_daily_schedule
  rw [h1]
  simp [h2, h3, h4, h5, h6]

lemma gds_active (sem : SemesterInfo) (cs : List Course) (today : PyDate)
    (s : String) (sd : PyDate) (edOpt : Option PyDate)
    (h1 : sem.start_date = some s) (h2 : s ≠ "")
    (h3 : parseDate s = some sd) (h4 : parseEndDate sem.end_date = some edOpt)
    (h5 : dlt today sd = false) (h6 : endedCheck edOpt today = false) :
    get_daily_schedule sem cs today =
      { semester_name := some (sem.name.getD "未知学期")
        date := some (formatDate today)
        day := some (day_map (isoweekday today))
        week := some (get_current_week s today)
        status := some "active"
        courses := some (daily_courses (get_current_week s today)
          (day_map (isoweekday today)) cs) } := by
  unfold get_daily_schedule
  rw [h1]
  simp [h2, h3, h4, h5, h6]

lemma week_zero_before_start (s : String) (sd today : PyDate)
    (h3 : parseDate s = some sd) (h5 : dlt today sd = true) :
    get_current_week s today = 0 := by
  unfold get_current_week
  rw [h3]
  simp [h5]

/-! Claim theorems. -/

/-- C1: for a valid start date, `get_current_week` returns 0 strictly before
the start date; on or after it, it returns the floor of the day difference
divided by 7 plus one, so each day in the half-open block
`[start + 7k, start + 7k + 6]` is in week `k + 1` (the start date itself is
week 1). -/
theorem c1_week_formula (s : String) (sd today : PyDate) (h : parseDate s = some sd) :
    (dlt today sd = true → get_current_week s today = 0) ∧
    (dlt today sd = false →
      get_current_week s today = (toRataDie today - toRataDie sd) / 7 + 1) ∧
    (∀ k : Nat, toRataDie sd + 7 * k ≤ toRataDie today →
      toRataDie today ≤ toRataDie sd + 7 * k + 6 →
      get_current_week s today = k + 1) := by
  refine ⟨fun h5 => week_zero_before_start s sd today h h5, fun h5 => ?_, fun k hk1 hk2 => ?_⟩
  · unfold get_current_week
    rw [h]
    simp [h5]
  · have h5 : dlt today sd = false := by
      simp only [dlt, decide_eq_false_iff_not, not_lt]
      omega
    unfold get_current_week
    rw [h]
    simp only [h5, Bool.false_eq_true, if_false]
    omega

/-- Witness for C1 at the concrete start 2024-09-02: eight days later falls
in week 2. -/
theorem c1_week_formula_witness :
    get_current_week "2024-09-02" ⟨2024, 9, 10⟩ = 1 + 1 :=
  (c1_week_formula "2024-09-02" ⟨2024, 9, 2⟩ ⟨2024, 9, 10⟩ (by decide)).2.2 1
    (by decide) (by decide)

/-- C9: a start-date string that does not parse as a date is caught inside
`get_current_week`, which returns 0 instead of raising. -/
theorem c9_invalid_start_date (s : String) (today : PyDate) (h : parseDate s = none) :
    get_current_week s today = 0 := by
  unfold get_current_week
  rw [h]

/-- Witness for C9 on a concrete malformed date string. -/
theorem c9_invalid_start_date_witness :
    get_current_week "2024/09/02" ⟨2024, 9, 10⟩ = 0 :=
  c9_invalid_start_date "2024/09/02" ⟨2024, 9, 10⟩ (by decide)

/-- C5: weeks parsing strips the decorations, splits on commas, and handles
each token independently: a token containing `-` that splits into exactly two
integer bounds contributes the inclusive range, a plain integer token
contributes its single week, and any malformed token contributes nothing
without aborting the rest; concretely `"1-3,5"` gives weeks 1, 2, 3, 5 and
`""` and `"abc"` give no weeks. -/
theorem c5_weeks_parsing :
    parse_active_weeks "1-3,5" = [1, 2, 3, 5] ∧
    parse_active_weeks "" = [] ∧
    parse_active_weeks "abc" = [] ∧
    (∀ raw : String, parse_active_weeks raw =
      (splitOnC ',' (stripWeeks raw)).foldl (fun acc p => acc ++ processPart p) []) ∧
    (∀ p a b : List Char, ∀ lo hi : Int, '-' ∈ trimL p →
      splitOnC '-' (trimL p) = [a, b] →
      pyInt (trimL a) = some lo → pyInt (trimL b) = some hi →
      processPart p = intRange lo hi) ∧
    (∀ p a b : List Char, '-' ∈ trimL p → splitOnC '-' (trimL p) = [a, b] →
      pyInt (trimL a) = none ∨ pyInt (trimL b) = none → processPart p = []) ∧
    (∀ p : List Char, '-' ∈ trimL p → (splitOnC '-' (trimL p)).length ≠ 2 →
      processPart p = []) ∧
    (∀ p : List Char, ∀ n : Int, '-' ∉ trimL p → pyInt (trimL p) = some n →
      processPart p = [n]) ∧
    (∀ p : List Char, '-' ∉ trimL p → pyInt (trimL p) = none → processPart p = []) := by
  refine ⟨by decide, by decide, by decide, fun raw => rfl, ?_, ?_, ?_, ?_, ?_⟩
  · intro p a b lo hi hm hsp ha hb
    unfold processPart
    rw [if_pos hm, hsp]
    simp only [ha, hb]
  · intro p a b hm hsp hab
    unfold processPart
    rw [if_pos hm, hsp]
    rcases hab with ha | hb
    · simp only [ha]
    · simp only [hb]
      cases pyInt (trimL a) <;> rfl
  · intro p hm hlen
    unfold processPart
    rw [if_pos hm]
    rcases hsp : splitOnC '-' (trimL p) with _ | ⟨a, _ | ⟨b, _ | ⟨x, rest⟩⟩⟩
    · rfl
    · rfl
    · exact absurd (by rw [hsp]; rfl) hlen
    · rfl
  · intro p n hm hp
    unfold processPart
    rw [if_neg hm, hp]
  · intro p hm hp
    unfold processPart
    rw [if_neg hm, hp]

/-- Witness for C5 on the concrete token `" 2-4 "`. -/
theorem c5_weeks_parsing_witness :
    processPart " 2-4 ".data = [2, 3, 4] :=
  (c5_weeks_parsing.2.2.2.2.1 " 2-4 ".data ['2'] ['4'] 2 4 (by decide) (by decide)
    (by decide) (by decide)).trans (by decide)

/-- C2: with valid semester configuration, the phase decision is taken in
order with first match winning: before the start date the status is
`not_started` with no courses key and week 0; otherwise, past a present end
date the status is `ended` with no courses key but the computed week;
otherwise the status is `active` and a courses list is present. -/
theorem c2_phase_state_machine (sem : SemesterInfo) (cs : List Course) (today : PyDate)
    (s : String) (sd : PyDate) (edOpt : Option PyDate)
    (h1 : sem.start_date = some s) (h2 : s ≠ "")
    (h3 : parseDate s = some sd) (h4 : parseEndDate sem.end_date = some edOpt) :
    (dlt today sd = true →
      (get_daily_schedule sem cs today).status = some "not_started" ∧
      (get_daily_schedule sem cs today).courses = none ∧
      (get_daily_schedule sem cs today).week = some 0) ∧
    (dlt today sd = false → endedCheck edOpt today = true →
      (get_daily_schedule sem cs today).status = some "ended" ∧
      (get_daily_schedule sem cs today).courses = none ∧
      (get_daily_schedule sem cs today).week = some (get_current_week s today)) ∧
    (dlt today sd = false → endedCheck edOpt today = false →
      (get_daily_schedule sem cs today).status = some "active" ∧
      ∃ l, (get_daily_schedule sem cs today).courses = some l) := by
  refine ⟨fun h5 => ?_, fun h5 h6 => ?_, fun h5 h6 => ?_⟩
  · rw [gds_not_started sem cs today s sd edOpt h1 h2 h3 h4 h5]
    exact ⟨rfl, rfl, by rw [week_zero_before_start s sd today h3 h5]⟩
  · rw [gds_ended sem cs today s sd edOpt h1 h2 h3 h4 h5 h6]
    exact ⟨rfl, rfl, rfl⟩
  · rw [gds_active sem cs today s sd edOpt h1 h2 h3 h4 h5 h6]
    exact ⟨rfl, _, rfl⟩

/-- Witness for C2 at the spec scenario: end date 2025-01-10, run on
2025-01-11. -/
theorem c2_phase_state_machine_witness :
    (get_daily_schedule semA [] ⟨2025, 1, 11⟩).status = some "ended" ∧
    (get_daily_schedule semA [] ⟨2025, 1, 11⟩).courses = none ∧
    (get_daily_schedule semA [] ⟨2025, 1, 11⟩).week =
      some (get_current_week "2024-09-02" ⟨2025, 1, 11⟩) :=
  (c2_phase_state_machine semA [] ⟨2025, 1, 11⟩ "2024-09-02" ⟨2024, 9, 2⟩
    (some ⟨2025, 1, 10⟩) (by decide) (by decide) (by decide) (by decide)).2.1
    (by decide) (by decide)

/-- C3: in the active phase a course is in the resolved list exactly when it
is one of the input courses, its `day` equals the label of today, and the
current week is among the weeks parsed from its `weeks` field (so a
day mismatch, a week not in the set, and an empty or unparseable `weeks`
each exclude the course). -/
theorem c3_active_inclusion (sem : SemesterInfo) (cs : List Course) (today : PyDate)
    (s : String) (sd : PyDate) (edOpt : Option PyDate)
    (h1 : sem.start_date = some s) (h2 : s ≠ "")
    (h3 : parseDate s = some sd) (h4 : parseEndDate sem.end_date = some edOpt)
    (h5 : dlt today sd = false) (h6 : endedCheck edOpt today = false) :
    ∃ l, (get_daily_schedule sem cs today).courses = some l ∧
      ∀ c, c ∈ l ↔ c ∈ cs ∧ c.day = some (day_map (isoweekday today)) ∧
        ((get_current_week s today : Nat) : Int) ∈ parse_active_weeks (c.weeks.getD "") := by
  rw [gds_active sem cs today s sd edOpt h1 h2 h3 h4 h5 h6]
  refine ⟨_, rfl, fun c => ?_⟩
  rw [mem_daily_courses, courseMatches_iff]

/-- Witness for C3 on a Monday of week 5 with one matching course. -/
theorem c3_active_inclusion_witness :
    ∃ l, (get_daily_schedule semA [cMon] ⟨2024, 9, 30⟩).courses = some l ∧
      ∀ c, c ∈ l ↔ c ∈ [cMon] ∧ c.day = some (day_map (isoweekday ⟨2024, 9, 30⟩)) ∧
        ((get_current_week "2024-09-02" ⟨2024, 9, 30⟩ : Nat) : Int) ∈
          parse_active_weeks (c.weeks.getD "") :=
  c3_active_inclusion semA [cMon] ⟨2024, 9, 30⟩ "2024-09-02" ⟨2024, 9, 2⟩
    (some ⟨2025, 1, 10⟩) (by decide) (by decide) (by decide) (by decide)
    (by decide) (by decide)

lemma key_of_unparsed (c : Course) (h : startTimeParses c = false) :
    get_start_time_key c = 23 * 60 + 59 := by
  unfold startTimeParses at h
  unfold get_start_time_key
  cases hp : parseHM (trimL ((splitOnC '-' (c.time.getD "23:59-23:59").data).headD [])) with
  | none => rfl
  | some k => rw [hp] at h; simp at h

unseal List.merge List.mergeSort in
/-- C4 counterexample: on 2024-09-02 both `cNoTime` (unparseable `time`, sort
key 23:59) and `cLateTime` (parseable start exactly 23:59) are resolved, and
the stable sort keeps the unparseable-time course *before* the course with a
parseable time, contradicting the claim that it appears after all courses
with a parseable time. -/
theorem c4_counterexample :
    (get_daily_schedule semA [cNoTime, cLateTime] ⟨2024, 9, 2⟩).courses =
      some [cNoTime, cLateTime] ∧
    startTimeParses cNoTime = false ∧ startTimeParses cLateTime = true ∧
    cNoTime ≠ cLateTime := by
  decide

/-- C4 as amended: in the active phase the resolved list is ascending in the
start-time key, a course with missing or unparseable `time` has key 23:59,
and it appears after every course whose parsed start time is strictly
earlier than 23:59 (it may tie with — and then precede — a course whose
parseable start time is exactly 23:59). -/
theorem c4_sort_order (sem : SemesterInfo) (cs : List Course) (today : PyDate)
    (s : String) (sd : PyDate) (edOpt : Option PyDate)
    (h1 : sem.start_date = some s) (h2 : s ≠ "")
    (h3 : parseDate s = some sd) (h4 : parseEndDate sem.end_date = some edOpt)
    (h5 : dlt today sd = false) (h6 : endedCheck edOpt today = false) :
    ∃ l, (get_daily_schedule sem cs today).courses = some l ∧
      l.Pairwise (fun a b => get_start_time_key a ≤ get_start_time_key b) ∧
      (∀ c ∈ l, startTimeParses c = false → get_start_time_key c = 23 * 60 + 59) ∧
      (∀ i j : Fin l.length, get_start_time_key (l.get i) < 23 * 60 + 59 →
        startTimeParses (l.get j) = false → (i : Nat) < (j : Nat)) := by
  rw [gds_active sem cs today s sd edOpt h1 h2 h3 h4 h5 h6]
  refine ⟨_, rfl, ?_, fun c _ hc => key_of_unparsed c hc, ?_⟩
  · have h := List.sorted_mergeSort timeLe_trans timeLe_total
      (cs.filter (courseMatches (get_current_week s today) (day_map (isoweekday today))))
    exact h.imp (fun hab => by simpa [timeLe] using hab)
  · intro i j hki hpj
    have hpw : (daily_courses (get_current_week s today) (day_map (isoweekday today))
        cs).Pairwise (fun a b => get_start_time_key a ≤ get_start_time_key b) := by
      have h := List.sorted_mergeSort timeLe_trans timeLe_total
        (cs.filter (courseMatches (get_current_week s today) (day_map (isoweekday today))))
      exact h.imp (fun hab => by simpa [timeLe] using hab)
    have hkj := key_of_unparsed _ hpj
    rcases Nat.lt_trichotomy (i : Nat) (j : Nat) with h | h | h
    · exact h
    · exfalso
      have : i = j := Fin.ext h
      rw [this, hkj] at hki
      omega
    · exfalso
      have hle := List.pairwise_iff_get.mp hpw j i h
      rw [hkj] at hle
      omega

/-- Witness for the amended C4 on a Monday of week 5 with two parseable-time
courses given in reverse time order. -/
theorem c4_sort_order_witness :
    ∃ l, (get_daily_schedule semA [cMonPM, cMon] ⟨2024, 9, 30⟩).courses = some l ∧
      l.Pairwise (fun a b => get_start_time_key a ≤ get_start_time_key b) ∧
      (∀ c ∈ l, startTimeParses c = false → get_start_time_key c = 23 * 60 + 59) ∧
      (∀ i j : Fin l.length, get_start_time_key (l.get i) < 23 * 60 + 59 →
        startTimeParses (l.get j) = false → (i : Nat) < (j : Nat)) :=
  c4_sort_order semA [cMonPM, cMon] ⟨2024, 9, 30⟩ "2024-09-02" ⟨2024, 9, 2⟩
    (some ⟨2025, 1, 10⟩) (by decide) (by decide) (by decide) (by decide)
    (by decide) (by decide)

unseal List.merge List.mergeSort in
/-- C6 counterexample: the Python call signatures carry no `today` argument —
`get_current_week(start_date_str)` and `get_daily_schedule(json_file_path)`
read `date.today()` internally (and the latter reads the filesystem while the
former prints on bad input).  With the ambient clock made explicit, two runs
with identical caller-supplied inputs give different results when the clock
differs, so "today" is not an injected parameter of the resolver. -/
theorem c6_clock_dependence :
    get_current_week "2024-09-02" ⟨2024, 9, 2⟩ ≠
      get_current_week "2024-09-02" ⟨2024, 9, 9⟩ ∧
    (get_daily_schedule semA [] ⟨2024, 9, 1⟩).status ≠
      (get_daily_schedule semA [] ⟨2024, 9, 2⟩).status := by
  decide

/-- C6 as amended: once the single ambient `date.today()` reading is an
explicit argument, resolution is a deterministic pure function — in every
non-error phase the `week` the resolver reports is exactly
`get_current_week` at the same clock reading, and no error is produced. -/
theorem c6_fixed_clock_week_consistency (sem : SemesterInfo) (cs : List Course)
    (today : PyDate) (s : String) (sd : PyDate) (edOpt : Option PyDate)
    (h1 : sem.start_date = some s) (h2 : s ≠ "")
    (h3 : parseDate s = some sd) (h4 : parseEndDate sem.end_date = some edOpt) :
    (get_daily_schedule sem cs today).week = some (get_current_week s today) ∧
    (get_daily_schedule sem cs today).error = none := by
  cases h5 : dlt today sd with
  | true =>
    rw [gds_not_started sem cs today s sd edOpt h1 h2 h3 h4 h5]
    exact ⟨rfl, rfl⟩
  | false =>
    cases h6 : endedCheck edOpt today with
    | true =>
      rw [gds_ended sem cs today s sd edOpt h1 h2 h3 h4 h5 h6]
      exact ⟨rfl, rfl⟩
    | false =>
      rw [gds_active sem cs today s sd edOpt h1 h2 h3 h4 h5 h6]
      exact ⟨rfl, rfl⟩

/-- Witness for the amended C6 on the concrete semester at its start date. -/
theorem c6_fixed_clock_week_consistency_witness :
    (get_daily_schedule semA [] ⟨2024, 9, 2⟩).week =
      some (get_current_week "2024-09-02" ⟨2024, 9, 2⟩) ∧
    (get_daily_schedule semA [] ⟨2024, 9, 2⟩).error = none :=
  c6_fixed_clock_week_consistency semA [] ⟨2024, 9, 2⟩ "2024-09-02" ⟨2024, 9, 2⟩
    (some ⟨2025, 1, 10⟩) (by decide) (by decide) (by decide) (by decide)

/-- C7: a missing, empty or unparseable `start_date` makes resolution return
an error dictionary with only the `error` key — no week, status, courses or
any other schedule field is produced alongside it. -/
theorem c7_config_error (sem : SemesterInfo) (cs : List Course) (today : PyDate)
    (h : sem.start_date = none ∨ sem.start_date = some "" ∨
      ∃ s, sem.start_date = some s ∧ parseDate s = none) :
    ∃ msg, (get_daily_schedule sem cs today).error = some msg ∧
      (get_daily_schedule sem cs today).week = none ∧
      (get_daily_schedule sem cs today).status = none ∧
      (get_daily_schedule sem cs today).courses = none ∧
      (get_daily_schedule sem cs today).semester_name = none ∧
      (get_daily_schedule sem cs today).date = none ∧
      (get_daily_schedule sem cs today).day = none ∧
      (get_daily_schedule sem cs today).message = none := by
  have hE : ∃ msg, get_daily_schedule sem cs today = DSOut.err msg := by
    rcases h with h | h | ⟨s, hs, hp⟩
    · exact ⟨"start_date 未定义", by unfold get_daily_schedule; rw [h]⟩
    · exact ⟨"start_date 未定义", by unfold get_daily_schedule; rw [h]; simp⟩
    · by_cases hse : s = ""
      · exact ⟨"start_date 未定义", by unfold get_daily_schedule; rw [hs]; simp [hse]⟩
      · exact ⟨"学期日期格式不正确", by unfold get_daily_schedule; rw [hs]; simp [hse, hp]⟩
  obtain ⟨msg, he⟩ := hE
  rw [he]
  exact ⟨msg, rfl, rfl, rfl, rfl, rfl, rfl, rfl, rfl⟩

/-- Witness for C7 with `start_date` absent. -/
theorem c7_config_error_witness :
    ∃ msg, (get_daily_schedule { name := some "某学期" } [cMon] ⟨2024, 9, 2⟩).error = some msg ∧
      (get_daily_schedule { name := some "某学期" } [cMon] ⟨2024, 9, 2⟩).week = none ∧
      (get_daily_schedule { name := some "某学期" } [cMon] ⟨2024, 9, 2⟩).status = none ∧
      (get_daily_schedule { name := some "某学期" } [cMon] ⟨2024, 9, 2⟩).courses = none ∧
      (get_daily_schedule { name := some "某学期" } [cMon] ⟨2024, 9, 2⟩).semester_name = none ∧
      (get_daily_schedule { name := some "某学期" } [cMon] ⟨2024, 9, 2⟩).date = none ∧
      (get_daily_schedule { name := some "某学期" } [cMon] ⟨2024, 9, 2⟩).day = none ∧
      (get_daily_schedule { name := some "某学期" } [cMon] ⟨2024, 9, 2⟩).message = none :=
  c7_config_error { name := some "某学期" } [cMon] ⟨2024, 9, 2⟩ (Or.inl (by decide))

/-- C8: with valid configuration, the active phase resolves every course
list without an error; a course whose `weeks` parses to no weeks at all is
dropped without disturbing the resolution of the surrounding courses, and a
course that matches on day and week is included whatever its `time` field
holds (a bad `time` only changes its sort key, never its membership). -/
theorem c8_per_record_resilience (sem : SemesterInfo) (cs : List Course) (today : PyDate)
    (s : String) (sd : PyDate) (edOpt : Option PyDate)
    (h1 : sem.start_date = some s) (h2 : s ≠ "")
    (h3 : parseDate s = some sd) (h4 : parseEndDate sem.end_date = some edOpt)
    (h5 : dlt today sd = false) (h6 : endedCheck edOpt today = false) :
    ((get_daily_schedule sem cs today).error = none ∧
      ∃ l, (get_daily_schedule sem cs today).courses = some l) ∧
    (∀ xs ys : List Course, ∀ c : Course,
      parse_active_weeks (c.weeks.getD "") = [] →
      daily_courses (get_current_week s today) (day_map (isoweekday today)) (xs ++ c :: ys) =
        daily_courses (get_current_week s today) (day_map (isoweekday today)) (xs ++ ys)) ∧
    (∀ c ∈ cs, courseMatches (get_current_week s today) (day_map (isoweekday today)) c = true →
      ∃ l, (get_daily_schedule sem cs today).courses = some l ∧ c ∈ l) := by
  have hg := gds_active sem cs today s sd edOpt h1 h2 h3 h4 h5 h6
  refine ⟨⟨by rw [hg], _, by rw [hg]⟩, ?_, ?_⟩
  · intro xs ys c hw
    have hcm : courseMatches (get_current_week s today) (day_map (isoweekday today)) c
        = false := by
      cases hb : courseMatches (get_current_week s today) (day_map (isoweekday today)) c with
      | false => rfl
      | true =>
        obtain ⟨-, hmem⟩ := (courseMatches_iff _ _ c).mp hb
        rw [hw] at hmem
        exact absurd hmem (List.not_mem_nil _)
    unfold daily_courses
    rw [List.filter_append, List.filter_append, List.filter_cons, hcm]
    simp
  · intro c hc hcm
    refine ⟨_, by rw [hg], ?_⟩
    rw [mem_daily_courses]
    exact ⟨hc, hcm⟩

/-- Witness for C8 in the active phase of the concrete semester. -/
theorem c8_per_record_resilience_witness :
    ((get_daily_schedule semA [cMon, cNoTime] ⟨2024, 9, 30⟩).error = none ∧
      ∃ l, (get_daily_schedule semA [cMon, cNoTime] ⟨2024, 9, 30⟩).courses = some l) ∧
    (∀ xs ys : List Course, ∀ c : Course,
      parse_active_weeks (c.weeks.getD "") = [] →
      daily_courses (get_current_week "2024-09-02" ⟨2024, 9, 30⟩)
          (day_map (isoweekday ⟨2024, 9, 30⟩)) (xs ++ c :: ys) =
        daily_courses (get_current_week "2024-09-02" ⟨2024, 9, 30⟩)
          (day_map (isoweekday ⟨2024, 9, 30⟩)) (xs ++ ys)) ∧
    (∀ c ∈ [cMon, cNoTime],
      courseMatches (get_current_week "2024-09-02" ⟨2024, 9, 30⟩)
        (day_map (isoweekday ⟨2024, 9, 30⟩)) c = true →
      ∃ l, (get_daily_schedule semA [cMon, cNoTime] ⟨2024, 9, 30⟩).courses = some l ∧ c ∈ l) :=
  c8_per_record_resilience semA [cMon, cNoTime] ⟨2024, 9, 30⟩ "2024-09-02" ⟨2024, 9, 2⟩
    (some ⟨2025, 1, 10⟩) (by decide) (by decide) (by decide) (by decide)
    (by decide) (by decide)

/-- C10: in the active phase the resolved list contains only input course
records, unchanged, and as a multiset it equals exactly the input courses
that satisfy the day-and-week filter: filtering and sorting select and
reorder, never rewrite. -/
theorem c10_select_and_reorder_only (sem : SemesterInfo) (cs : List Course) (today : PyDate)
    (s : String) (sd : PyDate) (edOpt : Option PyDate)
    (h1 : sem.start_date = some s) (h2 : s ≠ "")
    (h3 : parseDate s = some sd) (h4 : parseEndDate sem.end_date = some edOpt)
    (h5 : dlt today sd = false) (h6 : endedCheck edOpt today = false) :
    ∃ l, (get_daily_schedule sem cs today).courses = some l ∧
      (∀ c ∈ l, c ∈ cs) ∧
      l.Perm (cs.filter
        (courseMatches (get_current_week s today) (day_map (isoweekday today)))) ∧
      (l : Multiset Course) = (cs.filter
        (courseMatches (get_current_week s today) (day_map (isoweekday today)))
        : Multiset Course) := by
  rw [gds_active sem cs today s sd edOpt h1 h2 h3 h4 h5 h6]
  have hperm : (daily_courses (get_current_week s today) (day_map (isoweekday today))
      cs).Perm (cs.filter
        (courseMatches (get_current_week s today) (day_map (isoweekday today)))) := by
    unfold daily_courses
    exact List.mergeSort_perm _ _
  refine ⟨_, rfl, fun c hc => ((mem_daily_courses _ _ _ c).mp hc).1, hperm, ?_⟩
  exact Multiset.coe_eq_coe.mpr hperm

/-- Witness for C10 on the week-5 Monday with both Monday courses. -/
theorem c10_select_and_reorder_only_witness :
    ∃ l, (get_daily_schedule semA [cMonPM, cMon] ⟨2024, 9, 30⟩).courses = some l ∧
      (∀ c ∈ l, c ∈ [cMonPM, cMon]) ∧
      l.Perm ([cMonPM, cMon].filter
        (courseMatches (get_current_week "2024-09-02" ⟨2024, 9, 30⟩)
          (day_map (isoweekday ⟨2024, 9, 30⟩)))) ∧
      (l : Multiset Course) = ([cMonPM, cMon].filter
        (courseMatches (get_current_week "2024-09-02" ⟨2024, 9, 30⟩)
          (day_map (isoweekday ⟨2024, 9, 30⟩))) : Multiset Course) :=
  c10_select_and_reorder_only semA [cMonPM, cMon] ⟨2024, 9, 30⟩ "2024-09-02" ⟨2024, 9, 2⟩
    (some ⟨2025, 1, 10⟩) (by decide) (by decide) (by decide) (by decide)
    (by decide) (by decide)
